import Mathlib

/-!
Verification of the bf1942-linux binary patch engine.

The repository contains two near-identical Python scripts,
`src/patches/patch_ctf_respawn.py` and `src/patches/patch_ctf_flags_map.py`.
Each defines a `patch_file(filename, offset, original_hex, new_hex)` function
that verifies and applies a byte-level patch to a binary file:
it checks the file exists, decodes the two hex strings (after removing spaces)
with `binascii.unhexlify`, warns when their lengths differ, then opens the file
in `r+b` mode, seeks to `offset`, reads `len(orig_bytes)` bytes, and

* writes `new_bytes` at `offset` when the bytes read equal `orig_bytes`,
* reports "already patched" when they equal `new_bytes`,
* otherwise reports a mismatch and writes nothing.

We embed the engine shallowly: a file's bytes are a `List Nat`
(each entry one byte), a possibly-missing file is an `Option (List Nat)`
(`none` models `os.path.exists(filename) = False`; the filename string itself
only selects which file is read, so it is not part of the model), `seek`+`read`
and `seek`+`write` are `readAt` and `writeAt`, and the printed status lines are
classified by the `PatchResult` type that the spec names
"Patch Application Result".
-/

set_option autoImplicit false

namespace BF1942

/-! ### Hex decoding (`binascii.unhexlify` after `.replace(" ", "")`) -/

/-- Value of one hexadecimal digit character, case-insensitive;
`none` for a character that is not a hex digit.
Models the per-digit behaviour of Python's `binascii.unhexlify` on ASCII
input; CPython additionally rejects non-ASCII strings up front with a plain
`ValueError` rather than a per-digit `binascii.Error`, which `unhexlifyPy`
below models separately. -/
def hexDigitVal (c : Char) : Option Nat :=
  if '0' ≤ c ∧ c ≤ '9' then some (c.toNat - '0'.toNat)
  else if 'a' ≤ c ∧ c ≤ 'f' then some (c.toNat - 'a'.toNat + 10)
  else if 'A' ≤ c ∧ c ≤ 'F' then some (c.toNat - 'A'.toNat + 10)
  else none

/-- `binascii.unhexlify` on a list of ASCII characters: consume two hex
digits per output byte; fail (`binascii.Error`, caught by the scripts) on a
non-hex character or an odd digit count.  CPython's prior whole-string ASCII
check — whose failure is an uncaught plain `ValueError` — is layered on top
by `unhexlifyPy`. -/
def unhexlifyChars : List Char → Option (List Nat)
  | [] => some []
  | [_] => none
  | c₁ :: c₂ :: rest =>
    match hexDigitVal c₁, hexDigitVal c₂, unhexlifyChars rest with
    | some h, some l, some tail => some ((16 * h + l) :: tail)
    | _, _, _ => none

/-- The characters of `s` with every space removed:
models `s.replace(" ", "")` from the scripts. -/
def stripSpaces (s : String) : List Char :=
  s.toList.filter (fun c => c ≠ ' ')

/-- `binascii.unhexlify(s.replace(" ", ""))`, the hex-decoding step of both
scripts: `none` models the `binascii.Error` caught by the scripts. -/
def unhexlify (s : String) : Option (List Nat) :=
  unhexlifyChars (stripSpaces s)

/-! ### File primitives -/

/-- `f.seek(off)` followed by `f.read(n)` on a file whose bytes are `F`:
returns up to `n` bytes starting at `off`, fewer when the file is shorter. -/
def readAt (F : List Nat) (off n : Nat) : List Nat :=
  (F.drop off).take n

/-- `f.seek(off)` followed by `f.write(data)` on a file opened `r+b` whose
bytes are `F`: overwrites in place starting at `off`, extending the file
(zero-filling any gap) when the write runs past the end.  A zero-byte write
leaves the file untouched, as in POSIX. -/
def writeAt (F : List Nat) (off : Nat) (data : List Nat) : List Nat :=
  if data = [] then F
  else F.take off ++ List.replicate (off - F.length) 0 ++ data
    ++ F.drop (off + data.length)

/-! ### The patch engine -/

/-- Classification of the status lines `patch_file` prints, the
"Patch Application Result" of the spec. `NotFound` is `[ERROR] File not
found`, `MalformedHex` is `[ERROR] Invalid hex data`, `Applied` is
`[SUCCESS]`, `AlreadyApplied` is `[INFO] ... ALREADY PATCHED`, `Mismatch` is
`[FAIL] Byte mismatch`, and `IOFailure` is `[ERROR] Could not open/write file`
(never produced by the pure model, which has no permission errors). -/
inductive PatchResult
  | NotFound
  | MalformedHex
  | Applied
  | AlreadyApplied
  | Mismatch
  | IOFailure
deriving DecidableEq, Repr

/-- Everything observable about one `patch_file` call: the result
classification, whether the `[WARNING]` length line was printed, and the state
of the target file afterwards. -/
structure Outcome where
  result : PatchResult
  lengthWarning : Bool
  file : Option (List Nat)
deriving DecidableEq, Repr

/-- `patch_file` from `src/patches/patch_ctf_respawn.py`, lines 37-85.
`file` is the state of the file named by the script's `filename` argument
(`none` when `os.path.exists` is false).  Steps, in the script's order:
existence check, hex decoding of both strings, length warning, then
seek/read/three-way-compare and the conditional write. -/
def patch_file (offset : Nat) (original_hex new_hex : String)
    (file : Option (List Nat)) : Outcome :=
  match file with
  | none => ⟨.NotFound, false, none⟩
  | some F =>
    match unhexlify original_hex, unhexlify new_hex with
    | some orig_bytes, some new_bytes =>
      let warn : Bool := orig_bytes.length != new_bytes.length
      let current_data := readAt F offset orig_bytes.length
      if current_data = orig_bytes then
        ⟨.Applied, warn, some (writeAt F offset new_bytes)⟩
      else if current_data = new_bytes then
        ⟨.AlreadyApplied, warn, some F⟩
      else
        ⟨.Mismatch, warn, some F⟩
    | _, _ => ⟨.MalformedHex, false, some F⟩

/-- `patch_file` from `src/patches/patch_ctf_flags_map.py`, lines 38-86.
Transcribed separately from its own source file; it differs from the respawn
script only in the status-line text (the `[FAIL]` diagnostic is truncated to
30 hex characters), which does not affect the result classification, the
warning, or the file contents. -/
def patch_file_flags_map (offset : Nat) (original_hex new_hex : String)
    (file : Option (List Nat)) : Outcome :=
  match file with
  | none => ⟨.NotFound, false, none⟩
  | some F =>
    match unhexlify original_hex, unhexlify new_hex with
    | some orig_bytes, some new_bytes =>
      let warn : Bool := orig_bytes.length != new_bytes.length
      let current_data := readAt F offset orig_bytes.length
      if current_data = orig_bytes then
        ⟨.Applied, warn, some (writeAt F offset new_bytes)⟩
      else if current_data = new_bytes then
        ⟨.AlreadyApplied, warn, some F⟩
      else
        ⟨.Mismatch, warn, some F⟩
    | _, _ => ⟨.MalformedHex, false, some F⟩

/-! ### The unhandled error path of `binascii.unhexlify` -/

/-- What one `binascii.unhexlify(s.replace(" ", ""))` call in the scripts can
do: return bytes (`ok`), raise `binascii.Error` (`error` — caught by the
scripts' `except binascii.Error`, taking the invalid-hex/skip path), or raise
the plain `ValueError` CPython produces for a string with a non-ASCII
character (`crash` — `binascii.Error` is a subclass of `ValueError`, not the
other way round, so `except binascii.Error` does not catch it and the script
dies with a traceback). -/
inductive DecodeResult
  | ok (bytes : List Nat)
  | error
  | crash
deriving DecidableEq, Repr

/-- `binascii.unhexlify(s.replace(" ", ""))` with CPython's full error
behaviour: the whole (space-stripped) string is first checked to be ASCII —
a non-ASCII character raises the uncaught plain `ValueError` (`crash`)
before any length or digit check — and only then is it decoded two hex
digits per byte, an odd count or non-hex ASCII character raising the caught
`binascii.Error` (`error`). -/
def unhexlifyPy (s : String) : DecodeResult :=
  if (stripSpaces s).all (fun c => c.toNat < 128) then
    match unhexlifyChars (stripSpaces s) with
    | some b => .ok b
    | none => .error
  else .crash

/-- Result of one whole `patch_file` call including the error path the
scripts do not handle: `completed` is a normal return with its observable
`Outcome`; `uncaught` is an exception escaping `patch_file` (the script dies
with a traceback), carrying the state of the target file at that moment. -/
inductive ScriptOutcome
  | completed (out : Outcome)
  | uncaught (file : Option (List Nat))
deriving DecidableEq, Repr

/-- `patch_file` from `src/patches/patch_ctf_respawn.py` again, now with the
uncaught `ValueError` path modelled instead of collapsed into the caught
`binascii.Error` path.  The two `unhexlify` calls sit in one `try` block and
run in order, so a crash or error in `original_hex` preempts `new_hex`; both
happen before the file is opened, so an `uncaught` exit leaves the file as it
was. -/
def patch_file_py (offset : Nat) (original_hex new_hex : String)
    (file : Option (List Nat)) : ScriptOutcome :=
  match file with
  | none => .completed ⟨.NotFound, false, none⟩
  | some F =>
    match unhexlifyPy original_hex with
    | .crash => .uncaught (some F)
    | .error => .completed ⟨.MalformedHex, false, some F⟩
    | .ok orig_bytes =>
      match unhexlifyPy new_hex with
      | .crash => .uncaught (some F)
      | .error => .completed ⟨.MalformedHex, false, some F⟩
      | .ok new_bytes =>
        let warn : Bool := orig_bytes.length != new_bytes.length
        let current_data := readAt F offset orig_bytes.length
        if current_data = orig_bytes then
          .completed ⟨.Applied, warn, some (writeAt F offset new_bytes)⟩
        else if current_data = new_bytes then
          .completed ⟨.AlreadyApplied, warn, some F⟩
        else
          .completed ⟨.Mismatch, warn, some F⟩

/-! ### Helper lemmas about the file primitives -/

theorem readAt_length (F : List Nat) (off n : Nat) :
    (readAt F off n).length = min n (F.length - off) := by
  simp [readAt]

/-- A read that returned a non-empty buffer of the full requested length
only happens when the window lies inside the file. -/
theorem readAt_full (F : List Nat) (off n : Nat) (b : List Nat)
    (h : readAt F off n = b) (hb : b.length = n) (hne : b ≠ []) :
    off + n ≤ F.length := by
  have hl := congrArg List.length h
  rw [readAt_length] at hl
  have h0 : 0 < b.length := List.length_pos.mpr hne
  omega

theorem writeAt_nil (F : List Nat) (off : Nat) : writeAt F off [] = F := by
  simp [writeAt]

theorem writeAt_eq_of_le (F data : List Nat) (off : Nat)
    (hoff : off ≤ F.length) (hd : data ≠ []) :
    writeAt F off data = F.take off ++ data ++ F.drop (off + data.length) := by
  simp [writeAt, hd, Nat.sub_eq_zero_of_le hoff]

theorem writeAt_length (F data : List Nat) (off : Nat)
    (h : off + data.length ≤ F.length) :
    (writeAt F off data).length = F.length := by
  by_cases hd : data = []
  · simp [hd, writeAt_nil]
  · rw [writeAt_eq_of_le F data off (by omega) hd]
    simp only [List.length_append, List.length_take, List.length_drop]
    omega

/-- Reading the window back after an in-bounds write returns what was
written. -/
theorem readAt_writeAt (F data : List Nat) (off : Nat)
    (h : off + data.length ≤ F.length) :
    readAt (writeAt F off data) off data.length = data := by
  by_cases hd : data = []
  · simp [hd, writeAt_nil, readAt]
  · rw [writeAt_eq_of_le F data off (by omega) hd, List.append_assoc]
    unfold readAt
    have hlen : (F.take off).length = off := by rw [List.length_take]; omega
    have hdrop := List.drop_left (F.take off) (data ++ F.drop (off + data.length))
    rw [hlen] at hdrop
    rw [hdrop]
    exact List.take_left data _

/-- A write does not change the bytes before the window
(when the window start is inside the file). -/
theorem writeAt_getElem_low (F data : List Nat) (off i : Nat)
    (hoff : off ≤ F.length) (hi : i < off) :
    (writeAt F off data)[i]? = F[i]? := by
  by_cases hd : data = []
  · simp [hd, writeAt_nil]
  · rw [writeAt_eq_of_le F data off hoff hd, List.append_assoc,
      List.getElem?_append]
    rw [List.length_take, if_pos (by omega), List.getElem?_take, if_pos hi]

/-- A write never changes the bytes past the end of the window. -/
theorem writeAt_getElem_high (F data : List Nat) (off i : Nat)
    (hi : off + data.length ≤ i) :
    (writeAt F off data)[i]? = F[i]? := by
  by_cases hd : data = []
  · simp [hd, writeAt_nil]
  · unfold writeAt
    rw [if_neg hd]
    rw [List.getElem?_append_right (by
      simp only [List.length_append, List.length_take, List.length_replicate]
      omega)]
    rw [List.getElem?_drop]
    congr 1
    simp only [List.length_append, List.length_take, List.length_replicate]
    omega

/-! ### Helper lemmas unfolding the engine -/

/-- `patch_file` on an existing file with well-formed hex data performs the
three-way comparison of the bytes read at the window. -/
theorem patch_file_eq (offset : Nat) (oh nh : String) (F orig newb : List Nat)
    (ho : unhexlify oh = some orig) (hn : unhexlify nh = some newb) :
    patch_file offset oh nh (some F) =
      if readAt F offset orig.length = orig then
        ⟨.Applied, orig.length != newb.length, some (writeAt F offset newb)⟩
      else if readAt F offset orig.length = newb then
        ⟨.AlreadyApplied, orig.length != newb.length, some F⟩
      else
        ⟨.Mismatch, orig.length != newb.length, some F⟩ := by
  simp only [patch_file, ho, hn]

theorem patch_file_malformed_left (offset : Nat) (oh nh : String)
    (F : List Nat) (ho : unhexlify oh = none) :
    patch_file offset oh nh (some F) = ⟨.MalformedHex, false, some F⟩ := by
  cases hn : unhexlify nh <;> simp only [patch_file, ho, hn]

theorem patch_file_malformed_right (offset : Nat) (oh nh : String)
    (F : List Nat) (hn : unhexlify nh = none) :
    patch_file offset oh nh (some F) = ⟨.MalformedHex, false, some F⟩ := by
  cases ho : unhexlify oh <;> simp only [patch_file, ho, hn]

/-- `unhexlifyChars` fails exactly on an odd digit count or a non-hex
character. -/
theorem unhexlifyChars_eq_none_iff (l : List Char) :
    unhexlifyChars l = none ↔
      l.length % 2 = 1 ∨ ∃ c ∈ l, hexDigitVal c = none := by
  induction l using unhexlifyChars.induct with
  | case1 => simp [unhexlifyChars]
  | case2 c => simp [unhexlifyChars]
  | case3 c₁ c₂ rest h l tail h₃ h₂ h₁ ih =>
    refine iff_of_false (by simp [unhexlifyChars, h₁, h₂, h₃]) ?_
    rintro (hodd | ⟨c, hmem, hcnone⟩)
    · have ho' : rest.length % 2 = 1 := by
        simp only [List.length_cons] at hodd; omega
      have hnone := ih.mpr (Or.inl ho')
      rw [h₃] at hnone
      exact Option.noConfusion hnone
    · simp only [List.mem_cons] at hmem
      rcases hmem with rfl | rfl | hmem
      · rw [h₁] at hcnone; exact Option.noConfusion hcnone
      · rw [h₂] at hcnone; exact Option.noConfusion hcnone
      · have hnone := ih.mpr (Or.inr ⟨c, hmem, hcnone⟩)
        rw [h₃] at hnone
        exact Option.noConfusion hnone
  | case4 c₁ c₂ rest hfail ih =>
    have hLHS : unhexlifyChars (c₁ :: c₂ :: rest) = none := by
      rw [unhexlifyChars]
      cases hh₁ : hexDigitVal c₁ <;> cases hh₂ : hexDigitVal c₂ <;>
        cases hh₃ : unhexlifyChars rest <;> try rfl
      exact (hfail _ _ _ hh₁ hh₂ hh₃).elim
    refine iff_of_true hLHS ?_
    cases hh₁ : hexDigitVal c₁ with
    | none => exact Or.inr ⟨c₁, by simp, hh₁⟩
    | some h => cases hh₂ : hexDigitVal c₂ with
      | none => exact Or.inr ⟨c₂, by simp, hh₂⟩
      | some l => cases hh₃ : unhexlifyChars rest with
        | some tail => exact (hfail _ _ _ hh₁ hh₂ hh₃).elim
        | none =>
          rcases ih.mp hh₃ with hodd | ⟨c, hmem, hcnone⟩
          · exact Or.inl (by simp only [List.length_cons]; omega)
          · exact Or.inr ⟨c, by simp [hmem], hcnone⟩

/-- Every hex digit is an ASCII character. -/
theorem hexDigitVal_ascii (c : Char) (h : hexDigitVal c ≠ none) :
    c.toNat < 128 := by
  unfold hexDigitVal at h
  by_cases h1 : '0' ≤ c ∧ c ≤ '9'
  · have h2 := h1.2
    rw [Char.le_def, UInt32.le_def] at h2
    have h3 : c.toNat ≤ 57 := h2
    omega
  · rw [if_neg h1] at h
    by_cases h2 : 'a' ≤ c ∧ c ≤ 'f'
    · have h3 := h2.2
      rw [Char.le_def, UInt32.le_def] at h3
      have h4 : c.toNat ≤ 102 := h3
      omega
    · rw [if_neg h2] at h
      by_cases h3 : 'A' ≤ c ∧ c ≤ 'F'
      · have h4 := h3.2
        rw [Char.le_def, UInt32.le_def] at h4
        have h5 : c.toNat ≤ 70 := h4
        omega
      · rw [if_neg h3] at h
        exact absurd rfl h

theorem unhexlifyPy_error_iff (s : String) :
    unhexlifyPy s = .error ↔
      ((stripSpaces s).all (fun c => c.toNat < 128)) = true ∧
        unhexlifyChars (stripSpaces s) = none := by
  unfold unhexlifyPy
  by_cases hall : ((stripSpaces s).all (fun c => c.toNat < 128)) = true
  · rw [if_pos hall]
    cases hu : unhexlifyChars (stripSpaces s) <;> simp [hall, hu]
  · rw [if_neg hall]
    simp [hall]

theorem unhexlifyPy_crash_iff (s : String) :
    unhexlifyPy s = .crash ↔
      ¬ ((stripSpaces s).all (fun c => c.toNat < 128)) = true := by
  unfold unhexlifyPy
  by_cases hall : ((stripSpaces s).all (fun c => c.toNat < 128)) = true
  · rw [if_pos hall]
    cases hu : unhexlifyChars (stripSpaces s) <;> simp [hall, hu]
  · rw [if_neg hall]
    simp [hall]

/-- On its success set the refined decoder agrees exactly with `unhexlify`:
a decode returns bytes in the refined model iff it does in the simple one,
with the same bytes.  So the success hypotheses of the other theorems
describe exactly the real program's successful decodes. -/
theorem unhexlifyPy_ok_iff (s : String) (b : List Nat) :
    unhexlifyPy s = .ok b ↔ unhexlify s = some b := by
  unfold unhexlifyPy unhexlify
  by_cases hall : ((stripSpaces s).all (fun c => c.toNat < 128)) = true
  · rw [if_pos hall]
    cases hu : unhexlifyChars (stripSpaces s) <;> simp [hu]
  · rw [if_neg hall]
    constructor
    · intro hc
      exact DecodeResult.noConfusion hc
    · intro hu
      exfalso
      apply hall
      rw [List.all_eq_true]
      intro c hc
      have hforall : hexDigitVal c ≠ none := by
        intro hcn
        have hnone : unhexlifyChars (stripSpaces s) = none :=
          (unhexlifyChars_eq_none_iff (stripSpaces s)).mpr
            (Or.inr ⟨c, hc, hcn⟩)
        rw [hu] at hnone
        exact Option.noConfusion hnone
      exact decide_eq_true (hexDigitVal_ascii c hforall)

example : unhexlify "01 02" = some [1, 2] := by decide
example : unhexlify "0A0b" = some [10, 11] := by decide
example : unhexlify "0g" = none := by decide
example : unhexlify "012" = none := by decide
example :
    patch_file 0 "0102" "0304" (some [1, 2, 9]) =
      ⟨.Applied, false, some [3, 4, 9]⟩ := by decide
example :
    patch_file 1 "0102" "0304" (some [9, 3, 4]) =
      ⟨.AlreadyApplied, false, some [9, 3, 4]⟩ := by decide
example :
    patch_file 0 "0102" "0304" (some [7, 7]) =
      ⟨.Mismatch, false, some [7, 7]⟩ := by decide
example : patch_file 0 "0102" "0304" none = ⟨.NotFound, false, none⟩ := by decide

/-! ### Claim theorems -/

/-- Claim C1: For every descriptor (existing target file, well-formed hex
strings), `patch_file` performs the three-way classification of the bytes
read at the patch window: equal to `original` → seek back and write
`replacement` in full, result `Applied`; equal to `replacement` (the cases
are taken in the script's `if`/`elif` order, so this means: and not equal to
`original`) → no write, result `AlreadyApplied`; equal to neither → no
write, result `Mismatch`. -/
theorem apply_three_way_classification (offset : Nat) (oh nh : String)
    (F orig newb : List Nat)
    (ho : unhexlify oh = some orig) (hn : unhexlify nh = some newb) :
    (readAt F offset orig.length = orig →
      (patch_file offset oh nh (some F)).result = .Applied ∧
      (patch_file offset oh nh (some F)).file =
        some (writeAt F offset newb)) ∧
    (readAt F offset orig.length ≠ orig →
      readAt F offset orig.length = newb →
      (patch_file offset oh nh (some F)).result = .AlreadyApplied ∧
      (patch_file offset oh nh (some F)).file = some F) ∧
    (readAt F offset orig.length ≠ orig →
      readAt F offset orig.length ≠ newb →
      (patch_file offset oh nh (some F)).result = .Mismatch ∧
      (patch_file offset oh nh (some F)).file = some F) := by
  refine ⟨fun h1 => ?_, fun h1 h2 => ?_, fun h1 h2 => ?_⟩
  · rw [patch_file_eq offset oh nh F orig newb ho hn, if_pos h1]
    exact ⟨rfl, rfl⟩
  · rw [patch_file_eq offset oh nh F orig newb ho hn, if_neg h1, if_pos h2]
    exact ⟨rfl, rfl⟩
  · rw [patch_file_eq offset oh nh F orig newb ho hn, if_neg h1, if_neg h2]
    exact ⟨rfl, rfl⟩

/-- Witness for C1: a concrete unpatched file is classified `Applied` and
rewritten. -/
theorem apply_three_way_classification_witness :
    (patch_file 0 "0102" "0304" (some [1, 2, 9])).result = .Applied ∧
    (patch_file 0 "0102" "0304" (some [1, 2, 9])).file =
      some (writeAt [1, 2, 9] 0 [3, 4]) :=
  (apply_three_way_classification 0 "0102" "0304" [1, 2, 9] [1, 2] [3, 4]
    (by decide) (by decide)).1 (by decide)

/-- Claim C2: Write exclusivity: `patch_file` never changes the file unless the
pre-image read at `[offset, offset + len(original))` exactly equals
`original`; in particular a corrupted window (matching neither byte string)
leaves the file byte-for-byte unchanged.  The hypothesis also covers
malformed hex, where no `original` decodes at all. -/
theorem apply_write_exclusivity (offset : Nat) (oh nh : String) (F : List Nat)
    (h : ∀ orig, unhexlify oh = some orig →
      readAt F offset orig.length ≠ orig) :
    (patch_file offset oh nh (some F)).file = some F := by
  cases ho : unhexlify oh with
  | none => rw [patch_file_malformed_left offset oh nh F ho]
  | some orig =>
    cases hn : unhexlify nh with
    | none => rw [patch_file_malformed_right offset oh nh F hn]
    | some newb =>
      rw [patch_file_eq offset oh nh F orig newb ho hn, if_neg (h orig ho)]
      by_cases h2 : readAt F offset orig.length = newb
      · rw [if_pos h2]
      · rw [if_neg h2]

/-- Witness for C2: a file whose window matches neither byte string is left
unchanged. -/
theorem apply_write_exclusivity_witness :
    (patch_file 0 "01" "02" (some [5])).file = some [5] :=
  apply_write_exclusivity 0 "01" "02" [5] (by
    intro orig ho
    have h1 : unhexlify "01" = some [1] := by decide
    rw [h1] at ho
    cases ho
    decide)

/-- Claim C6: Missing-file safety: on a non-existent target (`none`),
`patch_file` returns `NotFound` and the file state is untouched; the
existence check is the script's first step, before the file is opened. -/
theorem apply_missing_file (offset : Nat) (oh nh : String) :
    patch_file offset oh nh none = ⟨.NotFound, false, none⟩ := rfl

/-- Claim C9: The `patch_file` of `patch_ctf_respawn.py` and the `patch_file`
of `patch_ctf_flags_map.py` are behaviorally equivalent: same result
classification, same warning, same final file contents, on every input and
every file state. -/
theorem patch_file_respawn_eq_flags_map (offset : Nat) (oh nh : String)
    (file : Option (List Nat)) :
    patch_file offset oh nh file = patch_file_flags_map offset oh nh file :=
  rfl

/-- Claim C3, counterexample: The claim "apply twice yields `Applied` then
`AlreadyApplied`" fails when the decoded byte strings have different lengths:
with `original = 01`, `replacement = 0203` and file `[0x01]`, the first call
returns `Applied` (rewriting the file to `[0x02, 0x03]`), but the second call
returns `Mismatch`, not `AlreadyApplied`. -/
theorem apply_twice_counterexample :
    (patch_file 0 "01" "0203" (some [1])).result = .Applied ∧
    (patch_file 0 "01" "0203"
      ((patch_file 0 "01" "0203" (some [1])).file)).result = .Mismatch := by
  decide

/-- Claim C3, amended: Idempotence holds for descriptors whose two byte strings
have equal length and differ: whenever a call returns `Applied`, an immediate
second call on the resulting file returns `AlreadyApplied` and leaves the
bytes exactly as they were after the first call. -/
theorem apply_idempotent (offset : Nat) (oh nh : String)
    (F orig newb : List Nat)
    (ho : unhexlify oh = some orig) (hn : unhexlify nh = some newb)
    (hlen : orig.length = newb.length) (hne : orig ≠ newb)
    (h1 : (patch_file offset oh nh (some F)).result = .Applied) :
    (patch_file offset oh nh
      ((patch_file offset oh nh (some F)).file)).result = .AlreadyApplied ∧
    (patch_file offset oh nh
      ((patch_file offset oh nh (some F)).file)).file =
      (patch_file offset oh nh (some F)).file := by
  have hc : readAt F offset orig.length = orig := by
    by_contra hc
    rw [patch_file_eq offset oh nh F orig newb ho hn, if_neg hc] at h1
    by_cases h2 : readAt F offset orig.length = newb
    · rw [if_pos h2] at h1; exact PatchResult.noConfusion h1
    · rw [if_neg h2] at h1; exact PatchResult.noConfusion h1
  have horigne : orig ≠ [] := by
    intro he
    apply hne
    rw [he] at hlen ⊢
    exact (List.length_eq_zero.mp hlen.symm).symm
  have hbound : offset + orig.length ≤ F.length :=
    readAt_full F offset orig.length orig hc rfl horigne
  have hfile : (patch_file offset oh nh (some F)).file =
      some (writeAt F offset newb) := by
    rw [patch_file_eq offset oh nh F orig newb ho hn, if_pos hc]
  rw [hfile]
  have hr : readAt (writeAt F offset newb) offset orig.length = newb := by
    rw [hlen]
    exact readAt_writeAt F newb offset (by omega)
  have hno : readAt (writeAt F offset newb) offset orig.length ≠ orig := by
    rw [hr]
    exact fun e => hne e.symm
  rw [patch_file_eq offset oh nh (writeAt F offset newb) orig newb ho hn,
    if_neg hno, if_pos hr]
  exact ⟨rfl, rfl⟩

/-- Witness for the amended C3 at a concrete descriptor and file. -/
theorem apply_idempotent_witness :
    (patch_file 0 "0102" "0304"
      ((patch_file 0 "0102" "0304" (some [1, 2, 9])).file)).result =
        .AlreadyApplied ∧
    (patch_file 0 "0102" "0304"
      ((patch_file 0 "0102" "0304" (some [1, 2, 9])).file)).file =
      (patch_file 0 "0102" "0304" (some [1, 2, 9])).file :=
  apply_idempotent 0 "0102" "0304" [1, 2, 9] [1, 2] [3, 4]
    (by decide) (by decide) (by decide) (by decide) (by decide)

/-- Claim C4: Frame containment for every descriptor whose `original` is
non-empty (the data-model invariant): on a missing file nothing exists to
change; on an existing file every non-`Applied` outcome leaves it entirely
unchanged, and the final file agrees with the initial one at every index
outside `[offset, offset + len(replacement))`. -/
theorem apply_frame (offset : Nat) (oh nh : String) (F orig newb : List Nat)
    (ho : unhexlify oh = some orig) (hn : unhexlify nh = some newb)
    (hne : orig ≠ []) :
    (patch_file offset oh nh none).file = none ∧
    ((patch_file offset oh nh (some F)).result ≠ .Applied →
      (patch_file offset oh nh (some F)).file = some F) ∧
    (∀ G : List Nat, (patch_file offset oh nh (some F)).file = some G →
      ∀ i : Nat, i < offset ∨ offset + newb.length ≤ i → G[i]? = F[i]?) := by
  refine ⟨rfl, ?_, ?_⟩
  · intro hres
    rw [patch_file_eq offset oh nh F orig newb ho hn] at hres ⊢
    by_cases h1 : readAt F offset orig.length = orig
    · rw [if_pos h1] at hres
      exact absurd rfl hres
    · rw [if_neg h1] at hres ⊢
      by_cases h2 : readAt F offset orig.length = newb
      · rw [if_pos h2]
      · rw [if_neg h2]
  · intro G hG i hi
    rw [patch_file_eq offset oh nh F orig newb ho hn] at hG
    by_cases h1 : readAt F offset orig.length = orig
    · rw [if_pos h1] at hG
      have hG' : writeAt F offset newb = G := Option.some.inj hG
      subst hG'
      have hbound : offset + orig.length ≤ F.length :=
        readAt_full F offset orig.length orig h1 rfl hne
      rcases hi with hlow | hhigh
      · exact writeAt_getElem_low F newb offset i (by omega) hlow
      · exact writeAt_getElem_high F newb offset i hhigh
    · rw [if_neg h1] at hG
      by_cases h2 : readAt F offset orig.length = newb
      · rw [if_pos h2] at hG
        rw [Option.some.inj hG]
      · rw [if_neg h2] at hG
        rw [Option.some.inj hG]

/-- Witness for C4: bytes before and after the patched window of a concrete
file are unchanged. -/
theorem apply_frame_witness :
    ([5, 9, 7] : List Nat)[0]? = ([5, 2, 7] : List Nat)[0]? ∧
    ([5, 9, 7] : List Nat)[2]? = ([5, 2, 7] : List Nat)[2]? :=
  ⟨(apply_frame 1 "02" "09" [5, 2, 7] [2] [9] (by decide) (by decide)
      (by decide)).2.2 [5, 9, 7] (by decide) 0 (Or.inl (by decide)),
   (apply_frame 1 "02" "09" [5, 2, 7] [2] [9] (by decide) (by decide)
      (by decide)).2.2 [5, 9, 7] (by decide) 2 (Or.inr (by decide))⟩

/-- Claim C5, counterexample: A short read is not always classified `Mismatch`:
with `original = 010203` and the shorter `replacement = 0102`, the file
`[0x01, 0x02]` is shorter than `offset + len(original) = 3`, the read returns
only two bytes, and those two bytes equal `replacement`, so the call returns
`AlreadyApplied`, not `Mismatch`. -/
theorem short_read_counterexample :
    unhexlify "010203" = some [1, 2, 3] ∧
    ([1, 2] : List Nat).length < 0 + 3 ∧
    (patch_file 0 "010203" "0102" (some [1, 2])).result = .AlreadyApplied := by
  decide

/-- Claim C5, amended: On a file shorter than `offset + len(original)` (with
`original` non-empty, per the data-model invariant) the read returns fewer
bytes than requested and the call performs no write and does not crash; it is
classified `Mismatch` whenever the short buffer also differs from
`replacement`, and with equal-length byte strings that is always the case. -/
theorem short_read_mismatch (offset : Nat) (oh nh : String)
    (F orig newb : List Nat)
    (ho : unhexlify oh = some orig) (hn : unhexlify nh = some newb)
    (hne : orig ≠ []) (hshort : F.length < offset + orig.length) :
    (readAt F offset orig.length).length < orig.length ∧
    (readAt F offset orig.length ≠ newb →
      (patch_file offset oh nh (some F)).result = .Mismatch ∧
      (patch_file offset oh nh (some F)).file = some F) ∧
    (orig.length = newb.length →
      (patch_file offset oh nh (some F)).result = .Mismatch ∧
      (patch_file offset oh nh (some F)).file = some F) := by
  have h0 : 0 < orig.length := List.length_pos.mpr hne
  have hlt : (readAt F offset orig.length).length < orig.length := by
    rw [readAt_length]; omega
  have hc : readAt F offset orig.length ≠ orig := by
    intro he
    rw [he] at hlt
    omega
  refine ⟨hlt, fun hnb => ?_, fun hlen => ?_⟩
  · rw [patch_file_eq offset oh nh F orig newb ho hn, if_neg hc, if_neg hnb]
    exact ⟨rfl, rfl⟩
  · have hnb : readAt F offset orig.length ≠ newb := by
      intro he
      rw [he, ← hlen] at hlt
      omega
    rw [patch_file_eq offset oh nh F orig newb ho hn, if_neg hc, if_neg hnb]
    exact ⟨rfl, rfl⟩

/-- Witness for the amended C5 at a concrete too-short file. -/
theorem short_read_mismatch_witness :
    (patch_file 0 "0102" "0304" (some [1])).result = .Mismatch ∧
    (patch_file 0 "0102" "0304" (some [1])).file = some [1] :=
  (short_read_mismatch 0 "0102" "0304" [1] [1, 2] [3, 4]
    (by decide) (by decide) (by decide) (by decide)).2.2 (by decide)

/-- Claim C7: The length warning is advisory only: with byte strings of unequal
length the `[WARNING]` line is emitted, the classification of the window
bytes is exactly the same three-way comparison as in the equal-length case,
and a matching pre-image is still rewritten with all `len(replacement)` bytes
at `offset`. -/
theorem length_warning_advisory (offset : Nat) (oh nh : String)
    (F orig newb : List Nat)
    (ho : unhexlify oh = some orig) (hn : unhexlify nh = some newb)
    (hlen : orig.length ≠ newb.length) :
    (patch_file offset oh nh (some F)).lengthWarning = true ∧
    (patch_file offset oh nh (some F)).result =
      (if readAt F offset orig.length = orig then .Applied
       else if readAt F offset orig.length = newb then .AlreadyApplied
       else .Mismatch) ∧
    (readAt F offset orig.length = orig →
      (patch_file offset oh nh (some F)).file =
        some (writeAt F offset newb)) := by
  have hw : (orig.length != newb.length) = true := by
    simpa using hlen
  rw [patch_file_eq offset oh nh F orig newb ho hn]
  by_cases h1 : readAt F offset orig.length = orig
  · rw [if_pos h1, if_pos h1]
    exact ⟨hw, rfl, fun _ => rfl⟩
  · rw [if_neg h1, if_neg h1]
    by_cases h2 : readAt F offset orig.length = newb
    · rw [if_pos h2, if_pos h2]
      exact ⟨hw, rfl, fun he => absurd he h1⟩
    · rw [if_neg h2, if_neg h2]
      exact ⟨hw, rfl, fun he => absurd he h1⟩

/-- Witness for C7: an unequal-length descriptor warns and still applies. -/
theorem length_warning_advisory_witness :
    (patch_file 0 "0102" "09" (some [1, 2, 7])).lengthWarning = true ∧
    (patch_file 0 "0102" "09" (some [1, 2, 7])).file =
      some (writeAt [1, 2, 7] 0 [9]) :=
  ⟨(length_warning_advisory 0 "0102" "09" [1, 2, 7] [1, 2] [9]
      (by decide) (by decide) (by decide)).1,
   (length_warning_advisory 0 "0102" "09" [1, 2, 7] [1, 2] [9]
      (by decide) (by decide) (by decide)).2.2 (by decide)⟩

/-- Claim C10: Implicit length preservation: with equal-length byte strings,
`patch_file` never changes the file's total length — the write only happens
after a full-length read succeeded at `offset`, so it stays inside the
existing extent. -/
theorem apply_preserves_length (offset : Nat) (oh nh : String)
    (F orig newb : List Nat)
    (ho : unhexlify oh = some orig) (hn : unhexlify nh = some newb)
    (hlen : orig.length = newb.length) :
    Option.map List.length (patch_file offset oh nh (some F)).file =
      some F.length := by
  rw [patch_file_eq offset oh nh F orig newb ho hn]
  by_cases h1 : readAt F offset orig.length = orig
  · rw [if_pos h1]
    simp only [Option.map_some']
    by_cases hne : orig = []
    · have hnb : newb = [] := by
        rw [hne] at hlen
        exact List.length_eq_zero.mp hlen.symm
      rw [hnb, writeAt_nil]
    · have hbound : offset + orig.length ≤ F.length :=
        readAt_full F offset orig.length orig h1 rfl hne
      rw [writeAt_length F newb offset (by omega)]
  · rw [if_neg h1]
    by_cases h2 : readAt F offset orig.length = newb
    · rw [if_pos h2]; rfl
    · rw [if_neg h2]; rfl

/-- Witness for C10 at a concrete file. -/
theorem apply_preserves_length_witness :
    Option.map List.length (patch_file 0 "01" "02" (some [1])).file =
      some 1 :=
  apply_preserves_length 0 "01" "02" [1] [1] [2]
    (by decide) (by decide) (by decide)

/-- Claim C8, counterexample: decoding does not fail with `MalformedHex` on
every string containing an invalid hex digit.  The non-ASCII character `é` is
not a hex digit, yet on `"é0"` CPython's `binascii.unhexlify` raises a plain
`ValueError` (its ASCII precheck) that the scripts' `except binascii.Error`
does not catch: instead of the reported-and-skipped `MalformedHex` path, the
script dies with an uncaught exception (`uncaught`, file untouched). -/
theorem hex_decoding_counterexample :
    hexDigitVal 'é' = none ∧
    unhexlifyPy "é0" = .crash ∧
    patch_file_py 0 "é0" "00" (some [7]) = .uncaught (some [7]) := by
  decide

/-- Claim C8, amended: descriptor byte strings are decoded as hexadecimal
tolerating interspersed spaces and ignoring letter case; a string containing
a non-ASCII character makes the call raise an uncaught `ValueError` (the
script crashes, file untouched, before any open); an all-ASCII string fails —
with the caught `binascii.Error`, reported as `MalformedHex`, descriptor
skipped, no file opened or written — exactly when it has an odd number of
digits or contains a non-hex character. -/
theorem hex_decoding_ascii :
    (∀ s : String, (∀ c ∈ stripSpaces s, c.toNat < 128) →
      (unhexlifyPy s = .error ↔
        (stripSpaces s).length % 2 = 1 ∨
          ∃ c ∈ stripSpaces s, hexDigitVal c = none)) ∧
    (∀ s : String, unhexlifyPy s = .crash ↔
      ∃ c ∈ stripSpaces s, 128 ≤ c.toNat) ∧
    (∀ s t : String, unhexlifyPy (s ++ " " ++ t) = unhexlifyPy (s ++ t)) ∧
    (∀ n : Nat, n < 6 →
      hexDigitVal (Char.ofNat ('a'.toNat + n)) =
        hexDigitVal (Char.ofNat ('A'.toNat + n))) ∧
    (∀ (offset : Nat) (oh nh : String) (F : List Nat),
      unhexlifyPy oh = .error →
        patch_file_py offset oh nh (some F) =
          .completed ⟨.MalformedHex, false, some F⟩) ∧
    (∀ (offset : Nat) (oh nh : String) (F b : List Nat),
      unhexlifyPy oh = .ok b → unhexlifyPy nh = .error →
        patch_file_py offset oh nh (some F) =
          .completed ⟨.MalformedHex, false, some F⟩) ∧
    (∀ (offset : Nat) (oh nh : String) (F : List Nat),
      unhexlifyPy oh = .crash →
        patch_file_py offset oh nh (some F) = .uncaught (some F)) ∧
    (∀ (offset : Nat) (oh nh : String) (F b : List Nat),
      unhexlifyPy oh = .ok b → unhexlifyPy nh = .crash →
        patch_file_py offset oh nh (some F) = .uncaught (some F)) := by
  refine ⟨fun s hall => ?_, fun s => ?_, fun s t => ?_, by decide,
    fun offset oh nh F h1 => ?_, fun offset oh nh F b h1 h2 => ?_,
    fun offset oh nh F h1 => ?_, fun offset oh nh F b h1 h2 => ?_⟩
  · have hb : ((stripSpaces s).all (fun c => c.toNat < 128)) = true := by
      rw [List.all_eq_true]
      exact fun c hc => decide_eq_true (hall c hc)
    rw [unhexlifyPy_error_iff]
    simp only [hb, true_and]
    exact unhexlifyChars_eq_none_iff (stripSpaces s)
  · rw [unhexlifyPy_crash_iff]
    simp only [List.all_eq_true, decide_eq_true_eq]
    constructor
    · intro h
      push_neg at h
      exact h
    · intro h
      push_neg
      exact h
  · have hstrip : stripSpaces (s ++ " " ++ t) = stripSpaces (s ++ t) := by
      simp [stripSpaces, String.toList, String.data_append, List.filter_append]
    unfold unhexlifyPy
    rw [hstrip]
  · simp only [patch_file_py, h1]
  · simp only [patch_file_py, h1, h2]
  · simp only [patch_file_py, h1]
  · simp only [patch_file_py, h1, h2]

/-- Witness for the amended C8: a malformed ASCII string is reported and
skipped with the file untouched; a non-ASCII string crashes the call with
the file untouched; an inserted space never changes a decode. -/
theorem hex_decoding_ascii_witness :
    patch_file_py 0 "0g" "00" (some [7]) =
      .completed ⟨.MalformedHex, false, some [7]⟩ ∧
    patch_file_py 0 "é0" "00" (some [7]) = .uncaught (some [7]) ∧
    unhexlifyPy ("0" ++ " " ++ "1") = unhexlifyPy ("0" ++ "1") :=
  ⟨hex_decoding_ascii.2.2.2.2.1 0 "0g" "00" [7]
     ((hex_decoding_ascii.1 "0g" (by decide)).mpr
       (Or.inr ⟨'g', by decide, by decide⟩)),
   hex_decoding_ascii.2.2.2.2.2.2.1 0 "é0" "00" [7]
     ((hex_decoding_ascii.2.1 "é0").mpr ⟨'é', by decide, by decide⟩),
   hex_decoding_ascii.2.2.1 "0" "1"⟩

end BF1942
